import Mathlib

/-!
Shallow embedding of the execution-orchestration and HITL-checkpoint core of
the apilayer-sps service (src/api): the data model (executions, checkpoints,
activities), the router operations (start, approve, reject, cancel, webhook
ingestion), the CrewAI service-client cancel behaviour, and the SSE
connection manager.  Database rows are lists of records, row updates keyed
on the primary id are pointwise list maps, and external HTTP calls are
parameters carrying their outcome.
-/

set_option maxHeartbeats 1000000

/-! ### Enumerations (src/api/models) -/

/-- CheckpointType from src/api/models/checkpoint.py. -/
inductive CheckpointType where
  | BRAND_VOICE
  | STYLE_COMPLIANCE
  | FINAL_QA
deriving DecidableEq

/-- CheckpointStatus from src/api/models/checkpoint.py. -/
inductive CheckpointStatus where
  | PENDING
  | APPROVED
  | REJECTED
  | REVISION_REQUESTED
deriving DecidableEq

/-- ExecutionStatus from src/api/models/execution.py. -/
inductive ExecutionStatus where
  | PENDING
  | RUNNING
  | AWAITING_APPROVAL
  | COMPLETED
  | FAILED
  | CANCELLED
deriving DecidableEq

/-- ActivityType from src/api/models/activity.py. -/
inductive ActivityType where
  | TASK_START
  | TASK_COMPLETE
  | AGENT_THINKING
  | TOOL_USAGE
  | ERROR
  | MESSAGE
  | LLM_CALL
  | CREW_KICKOFF
deriving DecidableEq

/-- The .value string of a CheckpointType enum member. -/
def CheckpointType.value : CheckpointType → String
  | .BRAND_VOICE => "brand_voice"
  | .STYLE_COMPLIANCE => "style_compliance"
  | .FINAL_QA => "final_qa"

/-! ### String helpers (Python `in` substring test and `str.lower`) -/

/-- Whether `needle` is a leading segment of `hay` (over character lists). -/
def pfxChars : List Char → List Char → Bool
  | [], _ => true
  | _ :: _, [] => false
  | a :: as, b :: bs => a == b && pfxChars as bs

/-- Whether `needle` occurs contiguously inside `hay` (over character lists). -/
def hasSubChars (needle : List Char) : List Char → Bool
  | [] => pfxChars needle []
  | b :: bs => pfxChars needle (b :: bs) || hasSubChars needle bs

/-- Python `needle in hay` on strings (substring containment). -/
def strIn (needle hay : String) : Bool :=
  hasSubChars needle.data hay.data

/-- Python `str.lower()` (ASCII range, as in `Char.toLower`). -/
def pyLower (s : String) : String :=
  ⟨s.data.map Char.toLower⟩

/-- Python truthiness of an optional string (`None` and `""` are falsy). -/
def truthyStr : Option String → Bool
  | none => false
  | some s => !(s == "")

/-! ### Records (src/api/models) -/

/-- The authenticated caller (src/api/models/user.py, fields used by the core). -/
structure User where
  user_id : Nat
  name : String
deriving DecidableEq

/-- CrewExecution row (src/api/models/execution.py). -/
structure Execution where
  execution_id : Nat
  project_id : Nat
  workflow_mode : String
  status : ExecutionStatus
  crewai_execution_id : Option String
  started_at : Nat
  completed_at : Option Nat
  error_message : Option String
  created_by : Nat
deriving DecidableEq

/-- HITLCheckpoint row (src/api/models/checkpoint.py). -/
structure Checkpoint where
  checkpoint_id : Nat
  execution_id : Nat
  checkpoint_type : CheckpointType
  task_id : String
  status : CheckpointStatus
  content : String
  reviewer_feedback : Option String
  reviewed_by : Option Nat
  created_at : Nat
  reviewed_at : Option Nat
deriving DecidableEq

/-- AgentActivity row (src/api/models/activity.py); `event_id` and `is_human`
are the metadata-bag keys the core reads back. -/
structure Activity where
  activity_id : Nat
  execution_id : Nat
  agent_name : String
  activity_type : ActivityType
  message : String
  timestamp : Nat
  event_id : Option String
  is_human : Bool
deriving DecidableEq

/-- The persistent store: projects exist as foreign-key targets only. -/
structure DB where
  projects : List Nat
  executions : List Execution
  checkpoints : List Checkpoint
  activities : List Activity
  nextId : Nat
deriving DecidableEq

/-- An initial state: pre-existing projects, no executions yet. -/
def initDB (ps : List Nat) : DB :=
  { projects := ps, executions := [], checkpoints := [], activities := [], nextId := 0 }

/-! ### Error taxonomy and request/response shapes -/

/-- HTTP-level error classes raised by the routers: 404, 400 invalid state,
500 from a failed upstream CrewAI call, other 500s. -/
inductive ApiError where
  | notFound
  | invalidState
  | upstream
  | internal
deriving DecidableEq

/-- Outcome of one httpx call made by CrewAIService: 2xx, an HTTPStatusError
with its status code, a transport RequestError, or any other exception. -/
inductive HttpOutcome where
  | success
  | statusError (code : Nat)
  | requestError
  | otherError
deriving DecidableEq

/-- HITLWebhookPayload (src/api/schemas/webhook.py): `execution_id` is the
CrewAI-side id. -/
structure HITLWebhookPayload where
  execution_id : String
  task_id : String
  task_output : String
  agent_name : Option String
deriving DecidableEq

/-- One event of WebhookEventsPayload (src/api/schemas/webhook.py); the
untyped data bag is a string-keyed association list. -/
structure WebhookEvent where
  id : String
  execution_id : String
  timestamp : Nat
  type : String
  data : List (String × String)
deriving DecidableEq

/-- Response of the /webhook/hitl endpoint. -/
structure HitlWebhookResponse where
  status : String
  checkpoint_id : Nat
  message : String
deriving DecidableEq

/-- Summary counters returned by the /webhook/stream endpoint. -/
structure EventSummary where
  events_processed : Nat
  events_skipped : Nat
  events_error : Nat
deriving DecidableEq

/-- HITLApprovalResponse (fields the core computes). -/
structure HITLApprovalResponse where
  checkpoint_id : Nat
  execution_id : Nat
  crew_resumed : Bool
  will_retry : Bool
deriving DecidableEq

/-- CancelExecutionResponse (fields the core computes). -/
structure CancelExecutionResponse where
  execution_id : Nat
  crewai_cancelled : Bool
deriving DecidableEq

/-- StartExecutionResponse (fields the core computes). -/
structure StartExecutionResponse where
  execution_id : Nat
  crewai_execution_id : Option String
deriving DecidableEq

/-! ### Row lookups (the db.query(...).first() calls) -/

/-- Look up an execution row by primary key. -/
def findExecution (s : DB) (eid : Nat) : Option Execution :=
  s.executions.find? (fun e => e.execution_id == eid)

/-- Look up an execution row by its CrewAI-side external id. -/
def findExecutionByCrewaiId (s : DB) (kid : String) : Option Execution :=
  s.executions.find? (fun e => e.crewai_execution_id == some kid)

/-- Look up a checkpoint row by primary key. -/
def findCheckpoint (s : DB) (cid : Nat) : Option Checkpoint :=
  s.checkpoints.find? (fun c => c.checkpoint_id == cid)

/-- The duplicate test of receive_hitl_checkpoint: same execution, same task,
status PENDING. -/
def pendingPred (eid : Nat) (tid : String) (c : Checkpoint) : Bool :=
  c.execution_id == eid && c.task_id == tid && c.status == CheckpointStatus.PENDING

/-- Look up the PENDING checkpoint of an (execution, task id) pair. -/
def findPendingCheckpoint (s : DB) (eid : Nat) (tid : String) : Option Checkpoint :=
  s.checkpoints.find? (pendingPred eid tid)

/-- Look up an activity by the originating event id in its metadata bag. -/
def findActivityByEventId (s : DB) (evid : String) : Option Activity :=
  s.activities.find? (fun a => a.event_id == some evid)

/-! ### Webhook helpers (src/api/routers/webhooks.py) -/

/-- _infer_checkpoint_type (src/api/routers/webhooks.py): ordered keyword
rules on the lowercased task id. -/
def _infer_checkpoint_type (task_id : String) : CheckpointType :=
  let task_lower := pyLower task_id
  if strIn "brand" task_lower || strIn "voice" task_lower then
    CheckpointType.BRAND_VOICE
  else if strIn "style" task_lower || strIn "compliance" task_lower then
    CheckpointType.STYLE_COMPLIANCE
  else if strIn "qa" task_lower || strIn "final" task_lower || strIn "review" task_lower then
    CheckpointType.FINAL_QA
  else
    CheckpointType.FINAL_QA

/-- Modelled from the spec: "classifies checkpoint type from the task id using
ordered keyword rules — substrings brand/voice → BRAND_VOICE; style/compliance
→ STYLE_COMPLIANCE; qa/final/review → FINAL_QA; anything else defaults to
FINAL_QA", on the lowercased task id.  Written from the spec sentence to be
compared with `_infer_checkpoint_type`. -/
def checkpointTypeOfTaskIdSpec (task_id : String) : CheckpointType :=
  let t := pyLower task_id
  if strIn "brand" t || strIn "voice" t then CheckpointType.BRAND_VOICE
  else if strIn "style" t || strIn "compliance" t then CheckpointType.STYLE_COMPLIANCE
  else if strIn "qa" t || strIn "final" t || strIn "review" t then CheckpointType.FINAL_QA
  else CheckpointType.FINAL_QA

/-- Python dict.get with default on the event data bag. -/
def dataGet (d : List (String × String)) (k : String) : Option String :=
  (d.find? (fun p => p.1 == k)).map (fun p => p.2)

/-- dict.get(k, dflt). -/
def dataGetD (d : List (String × String)) (k : String) (dflt : String) : String :=
  (dataGet d k).getD dflt

/-- _transform_event_to_message (src/api/routers/webhooks.py): fixed table on
the event type tag. -/
def _transform_event_to_message (event : WebhookEvent) : String × ActivityType :=
  let event_type := event.type
  let data := event.data
  if event_type == "task_started" then
    let task_name := dataGetD data "task_name" (dataGetD data "task_id" "unknown")
    ("Started task: " ++ task_name, ActivityType.TASK_START)
  else if event_type == "task_completed" then
    let task_name := dataGetD data "task_name" (dataGetD data "task_id" "unknown")
    ("Completed task: " ++ task_name, ActivityType.TASK_COMPLETE)
  else if event_type == "task_failed" then
    let task_name := dataGetD data "task_name" (dataGetD data "task_id" "unknown")
    let error := dataGetD data "error" "Unknown error"
    ("Task failed: " ++ task_name ++ " - " ++ error, ActivityType.ERROR)
  else if event_type == "agent_execution_started" then
    let agent_name := dataGetD data "agent_name" "Agent"
    (agent_name ++ " started working", ActivityType.AGENT_THINKING)
  else if event_type == "agent_execution_completed" then
    let agent_name := dataGetD data "agent_name" "Agent"
    (agent_name ++ " finished", ActivityType.AGENT_THINKING)
  else if event_type == "llm_call_started" then
    let model := dataGetD data "model" "AI model"
    ("Calling " ++ model, ActivityType.LLM_CALL)
  else if event_type == "llm_call_completed" then
    let model := dataGetD data "model" "AI model"
    (model ++ " responded", ActivityType.LLM_CALL)
  else if event_type == "tool_usage_started" then
    let tool_name := dataGetD data "tool_name" "tool"
    ("Using tool: " ++ tool_name, ActivityType.TOOL_USAGE)
  else if event_type == "tool_usage_finished" then
    let tool_name := dataGetD data "tool_name" "tool"
    ("Finished using: " ++ tool_name, ActivityType.TOOL_USAGE)
  else if event_type == "crew_kickoff_started" then
    ("Crew execution started", ActivityType.CREW_KICKOFF)
  else if event_type == "crew_kickoff_completed" then
    ("Crew execution completed", ActivityType.MESSAGE)
  else if event_type == "crew_kickoff_failed" then
    let error := dataGetD data "error" "Unknown error"
    ("Crew execution failed: " ++ error, ActivityType.ERROR)
  else
    ("Event: " ++ event_type, ActivityType.MESSAGE)

/-- _extract_agent_name (src/api/routers/webhooks.py): first truthy field of
a fixed priority list, defaulting to "System" (Python `or` chain). -/
def _extract_agent_name (event : WebhookEvent) : String :=
  let data := event.data
  if truthyStr (dataGet data "agent_name") then (dataGet data "agent_name").getD ""
  else if truthyStr (dataGet data "agent") then (dataGet data "agent").getD ""
  else if truthyStr (dataGet data "actor") then (dataGet data "actor").getD ""
  else "System"

/-! ### CrewAIService.cancel_execution (src/api/services/crewai.py) -/

/-- CrewAIService.cancel_execution: True only when the POST succeeds
(raise_for_status passes); every exception — HTTPStatusError of any code,
RequestError, anything else — is caught and turned into False. -/
def cancel_execution_svc : HttpOutcome → Bool
  | .success => true
  | .statusError _ => false
  | .requestError => false
  | .otherError => false

/-- Modelled from the spec: "Cancel(externalJobId) → bool: returns false (not
an error) when the platform reports not-found or cancellation-unsupported;
returns true only on confirmed cancellation; any other failure propagates as
UpstreamError."  Written from the spec sentence to be compared with
`cancel_execution_svc`. -/
def cancelSpecResult : HttpOutcome → Except ApiError Bool
  | .success => .ok true
  | .statusError code =>
      if code == 404 || code == 405 then .ok false else .error ApiError.upstream
  | .requestError => .error ApiError.upstream
  | .otherError => .error ApiError.upstream

/-! ### Router operations

Each operation returns the post-call store together with the response or the
HTTP error raised; external calls (kickoff, resume, cancel) pass their
outcome in as a parameter. -/

/-- approve_checkpoint (src/api/routers/checkpoints.py).  `resumeOk` is the
outcome of the CrewAI resume call. -/
def approve_checkpoint (s : DB) (cid : Nat) (feedback : String) (user : User)
    (resumeOk : Bool) (now : Nat) : DB × Except ApiError HITLApprovalResponse :=
  match findCheckpoint s cid with
  | none => (s, .error .notFound)
  | some cp =>
    if cp.status == CheckpointStatus.PENDING then
      match findExecution s cp.execution_id with
      | none => (s, .error .internal)
      | some ex =>
        match ex.crewai_execution_id with
        | none => (s, .error .internal)
        | some _ =>
          let activity : Activity :=
            { activity_id := s.nextId, execution_id := ex.execution_id,
              agent_name := user.name, activity_type := ActivityType.MESSAGE,
              message := "✅ Approved: " ++ feedback, timestamp := now,
              event_id := none, is_human := false }
          let s1 : DB :=
            { s with
              checkpoints := s.checkpoints.map (fun c =>
                if c.checkpoint_id == cid then
                  { c with status := CheckpointStatus.APPROVED,
                           reviewer_feedback := some feedback,
                           reviewed_by := some user.user_id,
                           reviewed_at := some now }
                else c),
              activities := s.activities ++ [activity],
              nextId := s.nextId + 1 }
          if resumeOk then
            let s2 : DB :=
              { s1 with executions := s1.executions.map (fun e =>
                  if e.execution_id == ex.execution_id then
                    { e with status := ExecutionStatus.RUNNING }
                  else e) }
            (s2, .ok { checkpoint_id := cid, execution_id := ex.execution_id,
                       crew_resumed := true, will_retry := false })
          else
            let s2 : DB :=
              { s1 with checkpoints := s1.checkpoints.map (fun c =>
                  if c.checkpoint_id == cid then
                    { c with status := CheckpointStatus.PENDING,
                             reviewed_by := none, reviewed_at := none }
                  else c) }
            (s2, .error .upstream)
    else (s, .error .invalidState)

/-- reject_checkpoint (src/api/routers/checkpoints.py): mirrors approve with
status REJECTED and is_approve=False. -/
def reject_checkpoint (s : DB) (cid : Nat) (feedback : String) (user : User)
    (resumeOk : Bool) (now : Nat) : DB × Except ApiError HITLApprovalResponse :=
  match findCheckpoint s cid with
  | none => (s, .error .notFound)
  | some cp =>
    if cp.status == CheckpointStatus.PENDING then
      match findExecution s cp.execution_id with
      | none => (s, .error .internal)
      | some ex =>
        match ex.crewai_execution_id with
        | none => (s, .error .internal)
        | some _ =>
          let activity : Activity :=
            { activity_id := s.nextId, execution_id := ex.execution_id,
              agent_name := user.name, activity_type := ActivityType.MESSAGE,
              message := "🔄 Revision requested: " ++ feedback, timestamp := now,
              event_id := none, is_human := false }
          let s1 : DB :=
            { s with
              checkpoints := s.checkpoints.map (fun c =>
                if c.checkpoint_id == cid then
                  { c with status := CheckpointStatus.REJECTED,
                           reviewer_feedback := some feedback,
                           reviewed_by := some user.user_id,
                           reviewed_at := some now }
                else c),
              activities := s.activities ++ [activity],
              nextId := s.nextId + 1 }
          if resumeOk then
            let s2 : DB :=
              { s1 with executions := s1.executions.map (fun e =>
                  if e.execution_id == ex.execution_id then
                    { e with status := ExecutionStatus.RUNNING }
                  else e) }
            (s2, .ok { checkpoint_id := cid, execution_id := ex.execution_id,
                       crew_resumed := true, will_retry := true })
          else
            let s2 : DB :=
              { s1 with checkpoints := s1.checkpoints.map (fun c =>
                  if c.checkpoint_id == cid then
                    { c with status := CheckpointStatus.PENDING,
                             reviewed_by := none, reviewed_at := none }
                  else c) }
            (s2, .error .upstream)
    else (s, .error .invalidState)

/-- start_execution (src/api/routers/executions.py).  `outcome` is the CrewAI
kickoff result: on success the optional kickoff_id of the response body, on
failure the exception text. -/
def start_execution (s : DB) (project_id : Nat) (mode : String) (user : User)
    (outcome : Except String (Option String)) (now : Nat) :
    DB × Except ApiError StartExecutionResponse :=
  if s.projects.contains project_id then
    match outcome with
    | .ok kid =>
      let ex : Execution :=
        { execution_id := s.nextId, project_id := project_id, workflow_mode := mode,
          status := ExecutionStatus.RUNNING, crewai_execution_id := kid,
          started_at := now, completed_at := none, error_message := none,
          created_by := user.user_id }
      let activity : Activity :=
        { activity_id := s.nextId + 1, execution_id := s.nextId,
          agent_name := "System", activity_type := ActivityType.CREW_KICKOFF,
          message := "Crew execution started in " ++ mode ++ " mode",
          timestamp := now, event_id := none, is_human := false }
      ({ s with executions := s.executions ++ [ex],
                activities := s.activities ++ [activity],
                nextId := s.nextId + 2 },
       .ok { execution_id := s.nextId, crewai_execution_id := kid })
    | .error msg =>
      let ex : Execution :=
        { execution_id := s.nextId, project_id := project_id, workflow_mode := mode,
          status := ExecutionStatus.FAILED, crewai_execution_id := none,
          started_at := now, completed_at := none,
          error_message := some ("Failed to start crew: " ++ msg),
          created_by := user.user_id }
      ({ s with executions := s.executions ++ [ex], nextId := s.nextId + 1 },
       .error .upstream)
  else (s, .error .notFound)

/-- cancel_execution endpoint (src/api/routers/executions.py).  `cancel_http`
is the outcome of the CrewAI cancel call. -/
def cancel_execution_route (s : DB) (eid : Nat) (user : User)
    (cancel_http : HttpOutcome) (now : Nat) :
    DB × Except ApiError CancelExecutionResponse :=
  match findExecution s eid with
  | none => (s, .error .notFound)
  | some ex =>
    if [ExecutionStatus.COMPLETED, ExecutionStatus.CANCELLED,
        ExecutionStatus.FAILED].contains ex.status then
      (s, .error .invalidState)
    else
      let crewai_cancelled :=
        match ex.crewai_execution_id with
        | none => false
        | some _ => cancel_execution_svc cancel_http
      let activity : Activity :=
        { activity_id := s.nextId, execution_id := ex.execution_id,
          agent_name := user.name, activity_type := ActivityType.MESSAGE,
          message := "Execution cancelled by " ++ user.name, timestamp := now,
          event_id := none, is_human := true }
      let s1 : DB :=
        { s with
          executions := s.executions.map (fun e =>
            if e.execution_id == eid then
              { e with status := ExecutionStatus.CANCELLED, completed_at := some now }
            else e),
          activities := s.activities ++ [activity],
          nextId := s.nextId + 1 }
      (s1, .ok { execution_id := eid, crewai_cancelled := crewai_cancelled })

/-- receive_hitl_checkpoint (src/api/routers/webhooks.py). -/
def receive_hitl_checkpoint (s : DB) (payload : HITLWebhookPayload) (now : Nat) :
    DB × Except ApiError HitlWebhookResponse :=
  match findExecutionByCrewaiId s payload.execution_id with
  | none => (s, .error .notFound)
  | some ex =>
    match findPendingCheckpoint s ex.execution_id payload.task_id with
    | some existing =>
      (s, .ok { status := "received", checkpoint_id := existing.checkpoint_id,
                message := "Checkpoint already exists (idempotency)" })
    | none =>
      let checkpoint_type := _infer_checkpoint_type payload.task_id
      let checkpoint : Checkpoint :=
        { checkpoint_id := s.nextId, execution_id := ex.execution_id,
          checkpoint_type := checkpoint_type, task_id := payload.task_id,
          status := CheckpointStatus.PENDING, content := payload.task_output,
          reviewer_feedback := none, reviewed_by := none,
          created_at := now, reviewed_at := none }
      let activity : Activity :=
        { activity_id := s.nextId + 1, execution_id := ex.execution_id,
          agent_name := if truthyStr payload.agent_name then
                          payload.agent_name.getD "" else "Agent",
          activity_type := ActivityType.MESSAGE,
          message := "Checkpoint reached: " ++ checkpoint_type.value ++ "\n\n"
                       ++ payload.task_output,
          timestamp := now, event_id := none, is_human := false }
      let s1 : DB :=
        { s with
          checkpoints := s.checkpoints ++ [checkpoint],
          activities := s.activities ++ [activity],
          executions := s.executions.map (fun e =>
            if e.execution_id == ex.execution_id then
              { e with status := ExecutionStatus.AWAITING_APPROVAL }
            else e),
          nextId := s.nextId + 2 }
      (s1, .ok { status := "received", checkpoint_id := checkpoint.checkpoint_id,
                 message := "Checkpoint created successfully" })

/-- The per-event body of receive_event_stream's loop: duplicate event ids and
unknown executions are skipped, otherwise an Activity is appended. -/
def process_event (st : DB × EventSummary) (event : WebhookEvent) :
    DB × EventSummary :=
  let s := st.1
  let acc := st.2
  match findActivityByEventId s event.id with
  | some _ => (s, { acc with events_skipped := acc.events_skipped + 1 })
  | none =>
    match findExecutionByCrewaiId s event.execution_id with
    | none => (s, { acc with events_skipped := acc.events_skipped + 1 })
    | some ex =>
      let ma := _transform_event_to_message event
      let activity : Activity :=
        { activity_id := s.nextId, execution_id := ex.execution_id,
          agent_name := _extract_agent_name event, activity_type := ma.2,
          message := ma.1, timestamp := event.timestamp,
          event_id := some event.id, is_human := false }
      ({ s with activities := s.activities ++ [activity], nextId := s.nextId + 1 },
       { acc with events_processed := acc.events_processed + 1 })

/-- Insert one event into a timestamp-sorted list (stable). -/
def sortInsert (event : WebhookEvent) : List WebhookEvent → List WebhookEvent
  | [] => [event]
  | x :: xs =>
    if event.timestamp < x.timestamp then event :: x :: xs
    else x :: sortInsert event xs

/-- `sorted(payload.events, key=lambda e: e.timestamp)`. -/
def sortEvents : List WebhookEvent → List WebhookEvent
  | [] => []
  | x :: xs => sortInsert x (sortEvents xs)

/-- receive_event_stream (src/api/routers/webhooks.py): sort by timestamp,
process each event, return the aggregate counters. -/
def receive_event_stream (s : DB) (events : List WebhookEvent) :
    DB × Except ApiError EventSummary :=
  let r := (sortEvents events).foldl process_event
    (s, { events_processed := 0, events_skipped := 0, events_error := 0 })
  (r.1, .ok r.2)

/-! ### SSE connection manager (src/api/services/sse.py)

Queues are opaque Nat handles; the three dictionaries of the manager are
association lists.  `user_connections` values are Int, as in Python. -/

/-- SSEConnectionManager.MAX_CONNECTIONS_PER_USER. -/
def MAX_CONNECTIONS_PER_USER : Int := 3

/-- State of the SSEConnectionManager: execution id → queue set, user id →
connection count, queue → (execution id, user id). -/
structure SSEState where
  connections : List (String × List Nat)
  user_connections : List (String × Int)
  queue_metadata : List (Nat × String × String)
deriving DecidableEq

/-- The empty manager created at startup. -/
def sseInit : SSEState :=
  { connections := [], user_connections := [], queue_metadata := [] }

/-- defaultdict(int) read: 0 when the key is absent. -/
def getUserCount : List (String × Int) → String → Int
  | [], _ => 0
  | p :: rest, u => if p.1 == u then p.2 else getUserCount rest u

/-- dict assignment: overwrite the first binding or append a new one. -/
def setUserCount : List (String × Int) → String → Int → List (String × Int)
  | [], u, n => [(u, n)]
  | p :: rest, u, n => if p.1 == u then (p.1, n) :: rest else p :: setUserCount rest u n

/-- `del d[u]`. -/
def delUserCount : List (String × Int) → String → List (String × Int)
  | [], _ => []
  | p :: rest, u => if p.1 == u then delUserCount rest u else p :: delUserCount rest u

/-- queue_metadata lookup. -/
def getMeta : List (Nat × String × String) → Nat → Option (String × String)
  | [], _ => none
  | p :: rest, q => if p.1 == q then some p.2 else getMeta rest q

/-- queue_metadata assignment. -/
def setMeta : List (Nat × String × String) → Nat → String × String →
    List (Nat × String × String)
  | [], q, v => [(q, v)]
  | p :: rest, q, v => if p.1 == q then (p.1, v) :: rest else p :: setMeta rest q v

/-- `del queue_metadata[q]`. -/
def delMeta : List (Nat × String × String) → Nat → List (Nat × String × String)
  | [], _ => []
  | p :: rest, q => if p.1 == q then delMeta rest q else p :: delMeta rest q

/-- `self.connections[execution_id_str].add(queue)` with defaultdict(set). -/
def addQueue : List (String × List Nat) → String → Nat → List (String × List Nat)
  | [], e, q => [(e, [q])]
  | p :: rest, e, q =>
    if p.1 == e then (p.1, if p.2.contains q then p.2 else p.2 ++ [q]) :: rest
    else p :: addQueue rest e q

/-- `self.connections[e].discard(q)`, deleting the entry when it empties. -/
def removeQueue : List (String × List Nat) → String → Nat → List (String × List Nat)
  | [], _, _ => []
  | p :: rest, e, q =>
    if p.1 == e then
      let qs := p.2.filter (fun x => !(x == q))
      if qs.isEmpty then rest else (p.1, qs) :: rest
    else p :: removeQueue rest e q

/-- SSEConnectionManager.connect: reject when the caller's count has reached
the cap, otherwise register the queue and bump the count. -/
def sse_connect (s : SSEState) (execution_id user_id : String) (queue : Nat) :
    SSEState × Bool :=
  if getUserCount s.user_connections user_id ≥ MAX_CONNECTIONS_PER_USER then
    (s, false)
  else
    ({ connections := addQueue s.connections execution_id queue,
       user_connections := setUserCount s.user_connections user_id
         (getUserCount s.user_connections user_id + 1),
       queue_metadata := setMeta s.queue_metadata queue (execution_id, user_id) },
     true)

/-- SSEConnectionManager.disconnect: no-op for an unknown queue; otherwise
remove the queue, decrement the caller's count (deleting it at ≤ 0), and drop
the metadata entry. -/
def sse_disconnect (s : SSEState) (queue : Nat) : SSEState :=
  match getMeta s.queue_metadata queue with
  | none => s
  | some eu =>
    let c := getUserCount s.user_connections eu.2 - 1
    { connections := removeQueue s.connections eu.1 queue,
      user_connections :=
        if c ≤ 0 then delUserCount s.user_connections eu.2
        else setUserCount s.user_connections eu.2 c,
      queue_metadata := delMeta s.queue_metadata queue }

/-- Reachable states of the SSE manager under connect/disconnect (broadcast
prunes dead queues through disconnect and touches nothing else). -/
inductive SSEReach : SSEState → Prop
  | init : SSEReach sseInit
  | connect (s : SSEState) (e u : String) (q : Nat) :
      SSEReach s → SSEReach (sse_connect s e u q).1
  | disconnect (s : SSEState) (q : Nat) :
      SSEReach s → SSEReach (sse_disconnect s q)

/-! ### Reachable stores -/

/-- One API call against the store: start, approve, reject, cancel, or one of
the two webhook ingestions, with any request data and any outcome of the
external CrewAI call. -/
inductive Step : DB → DB → Prop
  | start (s : DB) (pid : Nat) (mode : String) (u : User)
      (oc : Except String (Option String)) (now : Nat) :
      Step s (start_execution s pid mode u oc now).1
  | approve (s : DB) (cid : Nat) (fb : String) (u : User) (rOk : Bool) (now : Nat) :
      Step s (approve_checkpoint s cid fb u rOk now).1
  | reject (s : DB) (cid : Nat) (fb : String) (u : User) (rOk : Bool) (now : Nat) :
      Step s (reject_checkpoint s cid fb u rOk now).1
  | cancel (s : DB) (eid : Nat) (u : User) (oc : HttpOutcome) (now : Nat) :
      Step s (cancel_execution_route s eid u oc now).1
  | hitl (s : DB) (p : HITLWebhookPayload) (now : Nat) :
      Step s (receive_hitl_checkpoint s p now).1
  | stream (s : DB) (evs : List WebhookEvent) :
      Step s (receive_event_stream s evs).1

/-- Stores reachable from an initial store through API calls. -/
inductive Reach : DB → Prop
  | init (ps : List Nat) : Reach (initDB ps)
  | step {s s' : DB} : Reach s → Step s s' → Reach s'

/-- Well-formedness of the execution table: primary keys below the allocator
and pairwise distinct. -/
def ExecIdsOk (s : DB) : Prop :=
  (∀ e ∈ s.executions, e.execution_id < s.nextId) ∧
  (s.executions.map (fun e => e.execution_id)).Nodup

/-- Well-formedness of the checkpoint table. -/
def CpIdsOk (s : DB) : Prop :=
  (∀ c ∈ s.checkpoints, c.checkpoint_id < s.nextId) ∧
  (s.checkpoints.map (fun c => c.checkpoint_id)).Nodup

/-- At most one PENDING checkpoint per (execution, task id) pair. -/
def PendingUnique (s : DB) : Prop :=
  ∀ eid tid, s.checkpoints.countP (pendingPred eid tid) ≤ 1

/-- The store invariant maintained by every API call. -/
def StoreInv (s : DB) : Prop := ExecIdsOk s ∧ CpIdsOk s ∧ PendingUnique s

/-! ### List helper lemmas -/

/-- countP does not grow under a pointwise update that never turns the
predicate on. -/
lemma countP_map_le {α : Type} (l : List α) (f : α → α) (p : α → Bool)
    (h : ∀ a ∈ l, p (f a) = true → p a = true) :
    (l.map f).countP p ≤ l.countP p := by
  induction l with
  | nil => simp
  | cons a t ih =>
    have ht := ih (fun x hx => h x (List.mem_cons_of_mem _ hx))
    have ha := h a (List.mem_cons_self a t)
    simp only [List.map_cons, List.countP_cons]
    by_cases hfa : p (f a) = true
    · rw [if_pos hfa, if_pos (ha hfa)]
      omega
    · rw [if_neg hfa]
      split <;> omega

/-- find? commutes with a key-preserving pointwise update. -/
lemma find?_map_of_key {α : Type} (l : List α) (f : α → α) (p : α → Bool)
    (h : ∀ a, p (f a) = p a) :
    (l.map f).find? p = (l.find? p).map f := by
  induction l with
  | nil => rfl
  | cons a t ih =>
    simp only [List.map_cons, List.find?_cons, h a]
    cases p a <;> simp [ih]

/-- Key projection is unchanged by a key-preserving pointwise update. -/
lemma map_key_of_map {α β : Type} (l : List α) (f : α → α) (key : α → β)
    (h : ∀ a, key (f a) = key a) : (l.map f).map key = l.map key := by
  induction l with
  | nil => rfl
  | cons a t ih => simp only [List.map_cons, h a, ih]

/-- In a table with pairwise-distinct keys, any member carrying the searched
key is the find? result. -/
lemma eq_of_find?_key {α : Type} (l : List α) (key : α → Nat) (k : Nat) (a b : α)
    (hnd : (l.map key).Nodup) (hfind : l.find? (fun x => key x == k) = some a)
    (hb : b ∈ l) (hbk : key b = k) : b = a := by
  have ha := List.mem_of_find?_eq_some hfind
  have hak : key a = k := by
    have := List.find?_some hfind
    simpa using this
  exact List.inj_on_of_nodup_map hnd hb ha (by rw [hbk, hak])

/-- Appending a freshly-allocated row keeps bounds and distinctness. -/
lemma idsOk_append {α : Type} (l : List α) (key : α → Nat) (x : α) (n m : Nat)
    (hb : ∀ a ∈ l, key a < n) (hnd : (l.map key).Nodup)
    (hx : key x = n) (hm : n < m) :
    (∀ a ∈ l ++ [x], key a < m) ∧ ((l ++ [x]).map key).Nodup := by
  constructor
  · intro a ha
    rcases List.mem_append.mp ha with h | h
    · exact lt_trans (hb a h) hm
    · rw [List.mem_singleton.mp h, hx]; exact hm
  · rw [List.map_append]
    rw [List.nodup_append]
    refine ⟨hnd, List.nodup_singleton _, ?_⟩
    intro y hy hx2
    obtain ⟨a, ha, rfl⟩ := List.mem_map.mp hy
    have hlt := hb a ha
    simp only [List.map_cons, List.map_nil, List.mem_singleton] at hx2
    omega

/-- A key-preserving pointwise update keeps bounds and distinctness, for any
not-smaller allocator value. -/
lemma idsOk_map {α : Type} (l : List α) (key : α → Nat) (f : α → α) (n m : Nat)
    (hk : ∀ a, key (f a) = key a)
    (hb : ∀ a ∈ l, key a < n) (hnd : (l.map key).Nodup) (hm : n ≤ m) :
    (∀ a ∈ l.map f, key a < m) ∧ ((l.map f).map key).Nodup := by
  constructor
  · intro a ha
    obtain ⟨b, hbmem, rfl⟩ := List.mem_map.mp ha
    rw [hk]
    exact lt_of_lt_of_le (hb b hbmem) hm
  · rw [map_key_of_map l f key hk]
    exact hnd

/-- One event-loop iteration touches only the activity table and the
allocator. -/
lemma process_event_preserves (s : DB) (acc : EventSummary) (e : WebhookEvent) :
    (process_event (s, acc) e).1.projects = s.projects ∧
    (process_event (s, acc) e).1.executions = s.executions ∧
    (process_event (s, acc) e).1.checkpoints = s.checkpoints ∧
    s.nextId ≤ (process_event (s, acc) e).1.nextId := by
  unfold process_event
  cases ha : findActivityByEventId s e.id with
  | some a => simp [ha]
  | none =>
    cases hx : findExecutionByCrewaiId s e.execution_id with
    | none => simp [ha, hx]
    | some ex => simp [ha, hx]

/-- The event loop touches only the activity table and the allocator. -/
lemma foldl_process_event_preserves (evs : List WebhookEvent) :
    ∀ (s : DB) (acc : EventSummary),
      (evs.foldl process_event (s, acc)).1.projects = s.projects ∧
      (evs.foldl process_event (s, acc)).1.executions = s.executions ∧
      (evs.foldl process_event (s, acc)).1.checkpoints = s.checkpoints ∧
      s.nextId ≤ (evs.foldl process_event (s, acc)).1.nextId := by
  induction evs with
  | nil => intro s acc; exact ⟨rfl, rfl, rfl, le_refl _⟩
  | cons e t ih =>
    intro s acc
    rw [List.foldl_cons]
    have hp := process_event_preserves s acc e
    rcases hps : process_event (s, acc) e with ⟨s', acc'⟩
    rw [hps] at hp
    obtain ⟨h1, h2, h3, h4⟩ := hp
    obtain ⟨g1, g2, g3, g4⟩ := ih s' acc'
    exact ⟨by rw [g1, h1], by rw [g2, h2], by rw [g3, h3], le_trans h4 g4⟩

/-- StartExecution preserves the store invariant. -/
lemma storeInv_start (s : DB) (pid : Nat) (mode : String) (u : User)
    (oc : Except String (Option String)) (now : Nat) (h : StoreInv s) :
    StoreInv (start_execution s pid mode u oc now).1 := by
  obtain ⟨⟨he1, he2⟩, ⟨hc1, hc2⟩, hp⟩ := h
  unfold start_execution
  by_cases hproj : s.projects.contains pid
  · rw [if_pos hproj]
    cases oc with
    | ok kid =>
      dsimp only
      have hids := idsOk_append s.executions (fun e => e.execution_id)
        { execution_id := s.nextId, project_id := pid, workflow_mode := mode,
          status := ExecutionStatus.RUNNING, crewai_execution_id := kid,
          started_at := now, completed_at := none, error_message := none,
          created_by := u.user_id }
        s.nextId (s.nextId + 2) he1 he2 rfl (by omega)
      refine ⟨⟨hids.1, hids.2⟩, ⟨?_, hc2⟩, hp⟩
      intro c hc
      exact lt_trans (hc1 c hc) (show s.nextId < s.nextId + 2 by omega)
    | error msg =>
      dsimp only
      have hids := idsOk_append s.executions (fun e => e.execution_id)
        { execution_id := s.nextId, project_id := pid, workflow_mode := mode,
          status := ExecutionStatus.FAILED, crewai_execution_id := none,
          started_at := now, completed_at := none,
          error_message := some ("Failed to start crew: " ++ msg),
          created_by := u.user_id }
        s.nextId (s.nextId + 1) he1 he2 rfl (by omega)
      refine ⟨⟨hids.1, hids.2⟩, ⟨?_, hc2⟩, hp⟩
      intro c hc
      exact lt_trans (hc1 c hc) (show s.nextId < s.nextId + 1 by omega)
  · rw [if_neg hproj]
    exact ⟨⟨he1, he2⟩, ⟨hc1, hc2⟩, hp⟩

/-- CancelExecution preserves the store invariant. -/
lemma storeInv_cancel (s : DB) (eid : Nat) (u : User) (oc : HttpOutcome)
    (now : Nat) (h : StoreInv s) :
    StoreInv (cancel_execution_route s eid u oc now).1 := by
  obtain ⟨⟨he1, he2⟩, ⟨hc1, hc2⟩, hp⟩ := h
  unfold cancel_execution_route
  cases hfe : findExecution s eid with
  | none => exact ⟨⟨he1, he2⟩, ⟨hc1, hc2⟩, hp⟩
  | some ex =>
    by_cases hterm : ([ExecutionStatus.COMPLETED, ExecutionStatus.CANCELLED,
        ExecutionStatus.FAILED].contains ex.status) = true
    · simp only [hfe, hterm, if_true]
      exact ⟨⟨he1, he2⟩, ⟨hc1, hc2⟩, hp⟩
    · simp only [hfe, Bool.not_eq_true] at *
      rw [if_neg (by rw [hterm]; exact Bool.false_ne_true)]
      dsimp only
      have hids := idsOk_map s.executions (fun e => e.execution_id)
        (fun e => if e.execution_id == eid then
          { e with status := ExecutionStatus.CANCELLED, completed_at := some now }
          else e)
        s.nextId (s.nextId + 1)
        (by intro a; by_cases hk : (a.execution_id == eid) = true <;> simp [hk])
        he1 he2 (by omega)
      refine ⟨⟨hids.1, hids.2⟩, ⟨?_, hc2⟩, hp⟩
      intro c hc
      exact lt_trans (hc1 c hc) (show s.nextId < s.nextId + 1 by omega)

/-- Event-batch ingestion preserves the store invariant. -/
lemma storeInv_stream (s : DB) (evs : List WebhookEvent) (h : StoreInv s) :
    StoreInv (receive_event_stream s evs).1 := by
  obtain ⟨⟨he1, he2⟩, ⟨hc1, hc2⟩, hp⟩ := h
  unfold receive_event_stream
  obtain ⟨g1, g2, g3, g4⟩ := foldl_process_event_preserves (sortEvents evs) s
    { events_processed := 0, events_skipped := 0, events_error := 0 }
  refine ⟨⟨?_, ?_⟩, ⟨?_, ?_⟩, ?_⟩
  · intro e he
    rw [g2] at he
    exact lt_of_lt_of_le (he1 e he) g4
  · rw [g2]; exact he2
  · intro c hc
    rw [g3] at hc
    exact lt_of_lt_of_le (hc1 c hc) g4
  · rw [g3]; exact hc2
  · intro eid tid
    rw [g3]; exact hp eid tid

/-- Appending a fresh PENDING checkpoint for a pair with no pending
checkpoint keeps pending-uniqueness. -/
lemma pendingUnique_append (l : List Checkpoint) (cp : Checkpoint)
    (hnone : l.find? (pendingPred cp.execution_id cp.task_id) = none)
    (hl : ∀ eid tid, l.countP (pendingPred eid tid) ≤ 1) :
    ∀ eid tid, (l ++ [cp]).countP (pendingPred eid tid) ≤ 1 := by
  intro E T
  rw [List.countP_append]
  by_cases hsp : pendingPred E T cp = true
  · have hsp2 := hsp
    simp only [pendingPred, Bool.and_eq_true, beq_iff_eq] at hsp2
    obtain ⟨⟨hE, hT⟩, _⟩ := hsp2
    have h0 : l.countP (pendingPred E T) = 0 := by
      rw [List.countP_eq_zero]
      intro c hc
      rw [← hE, ← hT]
      exact List.find?_eq_none.mp hnone c hc
    rw [h0]
    simp [List.countP_cons, hsp]
  · have h1 : [cp].countP (pendingPred E T) = 0 := by
      rw [List.countP_eq_zero]
      intro c hc
      rw [List.mem_singleton.mp hc]
      simpa using hsp
    rw [h1]
    simpa using hl E T

/-- HITL-notification ingestion preserves the store invariant. -/
lemma storeInv_hitl (s : DB) (p : HITLWebhookPayload) (now : Nat)
    (h : StoreInv s) : StoreInv (receive_hitl_checkpoint s p now).1 := by
  obtain ⟨⟨he1, he2⟩, ⟨hc1, hc2⟩, hp⟩ := h
  unfold receive_hitl_checkpoint
  cases hfe : findExecutionByCrewaiId s p.execution_id with
  | none => exact ⟨⟨he1, he2⟩, ⟨hc1, hc2⟩, hp⟩
  | some ex =>
    dsimp only
    cases hdup : findPendingCheckpoint s ex.execution_id p.task_id with
    | some existing => exact ⟨⟨he1, he2⟩, ⟨hc1, hc2⟩, hp⟩
    | none =>
      dsimp only
      have hexecs := idsOk_map s.executions (fun e => e.execution_id)
        (fun e => if e.execution_id == ex.execution_id then
          { e with status := ExecutionStatus.AWAITING_APPROVAL } else e)
        s.nextId (s.nextId + 2)
        (by intro a; by_cases hk : (a.execution_id == ex.execution_id) = true <;> simp [hk])
        he1 he2 (by omega)
      have hcps := idsOk_append s.checkpoints (fun c => c.checkpoint_id)
        { checkpoint_id := s.nextId, execution_id := ex.execution_id,
          checkpoint_type := _infer_checkpoint_type p.task_id,
          task_id := p.task_id, status := CheckpointStatus.PENDING,
          content := p.task_output, reviewer_feedback := none,
          reviewed_by := none, created_at := now, reviewed_at := none }
        s.nextId (s.nextId + 2) hc1 hc2 rfl (by omega)
      refine ⟨⟨hexecs.1, hexecs.2⟩, ⟨hcps.1, hcps.2⟩, ?_⟩
      exact pendingUnique_append s.checkpoints _ hdup hp

/-- ApproveCheckpoint preserves the store invariant. -/
lemma storeInv_approve (s : DB) (cid : Nat) (fb : String) (u : User) (rOk : Bool)
    (now : Nat) (h : StoreInv s) :
    StoreInv (approve_checkpoint s cid fb u rOk now).1 := by
  obtain ⟨⟨he1, he2⟩, ⟨hc1, hc2⟩, hp⟩ := h
  unfold approve_checkpoint
  cases hfc : findCheckpoint s cid with
  | none => exact ⟨⟨he1, he2⟩, ⟨hc1, hc2⟩, hp⟩
  | some cp =>
    dsimp only
    by_cases hst : (cp.status == CheckpointStatus.PENDING) = true
    · rw [if_pos hst]
      cases hfe : findExecution s cp.execution_id with
      | none => exact ⟨⟨he1, he2⟩, ⟨hc1, hc2⟩, hp⟩
      | some ex =>
        dsimp only
        cases hki : ex.crewai_execution_id with
        | none => exact ⟨⟨he1, he2⟩, ⟨hc1, hc2⟩, hp⟩
        | some k =>
          dsimp only
          cases rOk with
          | true =>
            rw [if_pos rfl]
            dsimp only
            have hexecs := idsOk_map s.executions (fun e => e.execution_id)
              (fun e => if e.execution_id == ex.execution_id then
                { e with status := ExecutionStatus.RUNNING } else e)
              s.nextId (s.nextId + 1)
              (by intro a; by_cases hk : (a.execution_id == ex.execution_id) = true <;> simp [hk])
              he1 he2 (by omega)
            have hcps := idsOk_map s.checkpoints (fun c => c.checkpoint_id)
              (fun c => if c.checkpoint_id == cid then
                { c with status := CheckpointStatus.APPROVED,
                         reviewer_feedback := some fb,
                         reviewed_by := some u.user_id,
                         reviewed_at := some now } else c)
              s.nextId (s.nextId + 1)
              (by intro a; by_cases hk : (a.checkpoint_id == cid) = true <;> simp [hk])
              hc1 hc2 (by omega)
            refine ⟨⟨hexecs.1, hexecs.2⟩, ⟨hcps.1, hcps.2⟩, ?_⟩
            intro E T
            refine le_trans (countP_map_le _ _ _ ?_) (hp E T)
            intro c hcmem hpc
            by_cases hk : (c.checkpoint_id == cid) = true
            · exfalso
              simp [hk, pendingPred] at hpc
            · simpa [hk] using hpc
          | false =>
            rw [if_neg Bool.false_ne_true]
            dsimp only
            rw [List.map_map]
            have hcps := idsOk_map s.checkpoints (fun c => c.checkpoint_id)
              ((fun c => if c.checkpoint_id == cid then
                  { c with status := CheckpointStatus.PENDING,
                           reviewed_by := none, reviewed_at := none } else c) ∘
               (fun c => if c.checkpoint_id == cid then
                  { c with status := CheckpointStatus.APPROVED,
                           reviewer_feedback := some fb,
                           reviewed_by := some u.user_id,
                           reviewed_at := some now } else c))
              s.nextId (s.nextId + 1)
              (by intro a
                  by_cases hk : a.checkpoint_id = cid <;>
                    simp [Function.comp_apply, hk])
              hc1 hc2 (by omega)
            refine ⟨⟨?_, he2⟩, ⟨hcps.1, hcps.2⟩, ?_⟩
            · intro e he
              exact lt_trans (he1 e he) (show s.nextId < s.nextId + 1 by omega)
            · intro E T
              refine le_trans (countP_map_le _ _ _ ?_) (hp E T)
              intro c hcmem hpc
              by_cases hk : (c.checkpoint_id == cid) = true
              · have hceq : c = cp := eq_of_find?_key s.checkpoints
                  (fun x => x.checkpoint_id) cid cp c hc2 hfc hcmem (by simpa using hk)
                have hcp_status : cp.status = CheckpointStatus.PENDING := by
                  simpa using hst
                subst hceq
                simp only [Function.comp_apply] at hpc
                simp [hk, pendingPred] at hpc
                simp [pendingPred, hpc.1, hpc.2, hcp_status]
              · simp only [Function.comp_apply] at hpc
                simpa [hk] using hpc
    · rw [if_neg hst]
      exact ⟨⟨he1, he2⟩, ⟨hc1, hc2⟩, hp⟩

/-- RejectCheckpoint preserves the store invariant. -/
lemma storeInv_reject (s : DB) (cid : Nat) (fb : String) (u : User) (rOk : Bool)
    (now : Nat) (h : StoreInv s) :
    StoreInv (reject_checkpoint s cid fb u rOk now).1 := by
  obtain ⟨⟨he1, he2⟩, ⟨hc1, hc2⟩, hp⟩ := h
  unfold reject_checkpoint
  cases hfc : findCheckpoint s cid with
  | none => exact ⟨⟨he1, he2⟩, ⟨hc1, hc2⟩, hp⟩
  | some cp =>
    dsimp only
    by_cases hst : (cp.status == CheckpointStatus.PENDING) = true
    · rw [if_pos hst]
      cases hfe : findExecution s cp.execution_id with
      | none => exact ⟨⟨he1, he2⟩, ⟨hc1, hc2⟩, hp⟩
      | some ex =>
        dsimp only
        cases hki : ex.crewai_execution_id with
        | none => exact ⟨⟨he1, he2⟩, ⟨hc1, hc2⟩, hp⟩
        | some k =>
          dsimp only
          cases rOk with
          | true =>
            rw [if_pos rfl]
            dsimp only
            have hexecs := idsOk_map s.executions (fun e => e.execution_id)
              (fun e => if e.execution_id == ex.execution_id then
                { e with status := ExecutionStatus.RUNNING } else e)
              s.nextId (s.nextId + 1)
              (by intro a; by_cases hk : (a.execution_id == ex.execution_id) = true <;> simp [hk])
              he1 he2 (by omega)
            have hcps := idsOk_map s.checkpoints (fun c => c.checkpoint_id)
              (fun c => if c.checkpoint_id == cid then
                { c with status := CheckpointStatus.REJECTED,
                         reviewer_feedback := some fb,
                         reviewed_by := some u.user_id,
                         reviewed_at := some now } else c)
              s.nextId (s.nextId + 1)
              (by intro a; by_cases hk : (a.checkpoint_id == cid) = true <;> simp [hk])
              hc1 hc2 (by omega)
            refine ⟨⟨hexecs.1, hexecs.2⟩, ⟨hcps.1, hcps.2⟩, ?_⟩
            intro E T
            refine le_trans (countP_map_le _ _ _ ?_) (hp E T)
            intro c hcmem hpc
            by_cases hk : (c.checkpoint_id == cid) = true
            · exfalso
              simp [hk, pendingPred] at hpc
            · simpa [hk] using hpc
          | false =>
            rw [if_neg Bool.false_ne_true]
            dsimp only
            rw [List.map_map]
            have hcps := idsOk_map s.checkpoints (fun c => c.checkpoint_id)
              ((fun c => if c.checkpoint_id == cid then
                  { c with status := CheckpointStatus.PENDING,
                           reviewed_by := none, reviewed_at := none } else c) ∘
               (fun c => if c.checkpoint_id == cid then
                  { c with status := CheckpointStatus.REJECTED,
                           reviewer_feedback := some fb,
                           reviewed_by := some u.user_id,
                           reviewed_at := some now } else c))
              s.nextId (s.nextId + 1)
              (by intro a
                  by_cases hk : a.checkpoint_id = cid <;>
                    simp [Function.comp_apply, hk])
              hc1 hc2 (by omega)
            refine ⟨⟨?_, he2⟩, ⟨hcps.1, hcps.2⟩, ?_⟩
            · intro e he
              exact lt_trans (he1 e he) (show s.nextId < s.nextId + 1 by omega)
            · intro E T
              refine le_trans (countP_map_le _ _ _ ?_) (hp E T)
              intro c hcmem hpc
              by_cases hk : (c.checkpoint_id == cid) = true
              · have hceq : c = cp := eq_of_find?_key s.checkpoints
                  (fun x => x.checkpoint_id) cid cp c hc2 hfc hcmem (by simpa using hk)
                have hcp_status : cp.status = CheckpointStatus.PENDING := by
                  simpa using hst
                subst hceq
                simp only [Function.comp_apply] at hpc
                simp [hk, pendingPred] at hpc
                simp [pendingPred, hpc.1, hpc.2, hcp_status]
              · simp only [Function.comp_apply] at hpc
                simpa [hk] using hpc
    · rw [if_neg hst]
      exact ⟨⟨he1, he2⟩, ⟨hc1, hc2⟩, hp⟩

/-- Every reachable store satisfies the invariant; in particular pending
checkpoints are unique per (execution, task id) pair. -/
lemma reach_storeInv {s : DB} (h : Reach s) : StoreInv s := by
  induction h with
  | init ps =>
    refine ⟨⟨?_, ?_⟩, ⟨?_, ?_⟩, ?_⟩ <;> simp [initDB, PendingUnique]
  | step hs hstep ih =>
    cases hstep with
    | start pid mode u oc now => exact storeInv_start _ pid mode u oc now ih
    | approve cid fb u rOk now => exact storeInv_approve _ cid fb u rOk now ih
    | reject cid fb u rOk now => exact storeInv_reject _ cid fb u rOk now ih
    | cancel eid u oc now => exact storeInv_cancel _ eid u oc now ih
    | hitl p now => exact storeInv_hitl _ p now ih
    | stream evs => exact storeInv_stream _ evs ih

/-! ### Concrete fixtures for witnesses -/

/-- A caller. -/
def exUser : User := { user_id := 1, name := "Alice" }

/-- An execution awaiting approval with a CrewAI-side id. -/
def exExecAw : Execution :=
  { execution_id := 10, project_id := 5, workflow_mode := "creation",
    status := ExecutionStatus.AWAITING_APPROVAL, crewai_execution_id := some "kick-1",
    started_at := 0, completed_at := none, error_message := none, created_by := 1 }

/-- A pending checkpoint of that execution. -/
def exCpPending : Checkpoint :=
  { checkpoint_id := 20, execution_id := 10,
    checkpoint_type := CheckpointType.BRAND_VOICE, task_id := "brand_voice_review",
    status := CheckpointStatus.PENDING, content := "draft",
    reviewer_feedback := none, reviewed_by := none, created_at := 0,
    reviewed_at := none }

/-- The same checkpoint already approved. -/
def exCpApproved : Checkpoint := { exCpPending with status := CheckpointStatus.APPROVED }

/-- Store with a pending checkpoint. -/
def exDB1 : DB :=
  { projects := [5], executions := [exExecAw], checkpoints := [exCpPending],
    activities := [], nextId := 21 }

/-- Store with an approved checkpoint. -/
def exDB2 : DB := { exDB1 with checkpoints := [exCpApproved] }

/-! ### Claims -/

/-- C8: checkpoint type classification applies ordered keyword rules on the
lowercased task id — brand/voice → BRAND_VOICE, else style/compliance →
STYLE_COMPLIANCE, else qa/final/review → FINAL_QA, else FINAL_QA; and
"brand_voice_review" classifies as BRAND_VOICE. -/
theorem C8_infer_checkpoint_type :
    (∀ tid : String, _infer_checkpoint_type tid = checkpointTypeOfTaskIdSpec tid) ∧
    _infer_checkpoint_type "brand_voice_review" = CheckpointType.BRAND_VOICE := by
  constructor
  · intro tid; rfl
  · decide

/-- C5 counterexample: on an HTTP 500 status error and on a transport error
the Job Runner Client's cancel returns the boolean false instead of
propagating an upstream error, diverging from the spec-modelled behaviour. -/
theorem C5_counterexample :
    cancel_execution_svc (HttpOutcome.statusError 500) = false ∧
    cancelSpecResult (HttpOutcome.statusError 500) = Except.error ApiError.upstream ∧
    cancel_execution_svc HttpOutcome.requestError = false ∧
    cancelSpecResult HttpOutcome.requestError = Except.error ApiError.upstream := by
  refine ⟨rfl, by rfl, rfl, rfl⟩

/-- C5 (amended): the Job Runner Client's cancel returns true exactly on a
successful (2xx) response and false on every failure — not-found,
cancellation-unsupported, any other HTTP status error, or a transport error;
no failure propagates to the caller. -/
theorem C5_cancel_swallows_errors :
    (∀ o : HttpOutcome, cancel_execution_svc o = (o == HttpOutcome.success)) ∧
    cancel_execution_svc (HttpOutcome.statusError 404) = false ∧
    cancel_execution_svc (HttpOutcome.statusError 405) = false := by
  refine ⟨?_, rfl, rfl⟩
  intro o
  cases o <;> rfl

/-- C3: approving or rejecting a checkpoint that is not PENDING fails with
InvalidState and leaves the whole store — in particular the checkpoint —
unchanged. -/
theorem C3_non_pending_invalid_state :
    ∀ (s : DB) (cid : Nat) (fb : String) (u : User) (rOk : Bool) (now : Nat)
      (cp : Checkpoint),
      findCheckpoint s cid = some cp →
      cp.status ≠ CheckpointStatus.PENDING →
      approve_checkpoint s cid fb u rOk now = (s, Except.error ApiError.invalidState) ∧
      reject_checkpoint s cid fb u rOk now = (s, Except.error ApiError.invalidState) := by
  intro s cid fb u rOk now cp hfc hst
  have hb : (cp.status == CheckpointStatus.PENDING) = false := by
    simpa using hst
  constructor
  · unfold approve_checkpoint
    rw [hfc]
    dsimp only
    rw [if_neg (by rw [hb]; exact Bool.false_ne_true)]
  · unfold reject_checkpoint
    rw [hfc]
    dsimp only
    rw [if_neg (by rw [hb]; exact Bool.false_ne_true)]

/-- C3 witness: on a store holding only an APPROVED checkpoint, approve and
reject both fail with InvalidState and do not change the store. -/
theorem C3_witness :
    approve_checkpoint exDB2 20 "ok" exUser true 7 =
      (exDB2, Except.error ApiError.invalidState) ∧
    reject_checkpoint exDB2 20 "ok" exUser true 7 =
      (exDB2, Except.error ApiError.invalidState) :=
  C3_non_pending_invalid_state exDB2 20 "ok" exUser true 7 exCpApproved
    (by rfl) (by decide)

/-- C1: when the CrewAI resume call fails during Approve or Reject of a
PENDING checkpoint, the caller receives an upstream error, the checkpoint is
back in PENDING with reviewer and reviewed-at restored to their pre-action
(cleared) values, and the execution table — in particular the owning
Execution's status — is unchanged. -/
theorem C1_resume_failure_rollback :
    ∀ (s : DB) (cid : Nat) (fb : String) (u : User) (now : Nat)
      (cp : Checkpoint) (ex : Execution) (k : String),
      findCheckpoint s cid = some cp →
      cp.status = CheckpointStatus.PENDING →
      cp.reviewed_by = none →
      cp.reviewed_at = none →
      findExecution s cp.execution_id = some ex →
      ex.crewai_execution_id = some k →
      (((approve_checkpoint s cid fb u false now).2 = Except.error ApiError.upstream ∧
        (∃ cp', findCheckpoint (approve_checkpoint s cid fb u false now).1 cid = some cp' ∧
           cp'.status = cp.status ∧ cp'.reviewed_by = cp.reviewed_by ∧
           cp'.reviewed_at = cp.reviewed_at ∧ cp'.status = CheckpointStatus.PENDING) ∧
        (approve_checkpoint s cid fb u false now).1.executions = s.executions) ∧
       ((reject_checkpoint s cid fb u false now).2 = Except.error ApiError.upstream ∧
        (∃ cp', findCheckpoint (reject_checkpoint s cid fb u false now).1 cid = some cp' ∧
           cp'.status = cp.status ∧ cp'.reviewed_by = cp.reviewed_by ∧
           cp'.reviewed_at = cp.reviewed_at ∧ cp'.status = CheckpointStatus.PENDING) ∧
        (reject_checkpoint s cid fb u false now).1.executions = s.executions)) := by
  intro s cid fb u now cp ex k hfc hst hrb hra hfe hki
  have hstb : (cp.status == CheckpointStatus.PENDING) = true := by simp [hst]
  have hfc' : s.checkpoints.find? (fun c => c.checkpoint_id == cid) = some cp := hfc
  have hkey : (cp.checkpoint_id == cid) = true := by
    simpa using List.find?_some hfc'
  have hkeq : cp.checkpoint_id = cid := by simpa using hkey
  constructor
  · unfold approve_checkpoint
    rw [hfc]
    dsimp only
    rw [if_pos hstb, hfe]
    dsimp only
    rw [hki]
    dsimp only
    rw [if_neg Bool.false_ne_true]
    dsimp only
    refine ⟨rfl, ?_, rfl⟩
    refine Exists.intro
      { cp with status := CheckpointStatus.PENDING, reviewer_feedback := some fb, reviewed_by := none, reviewed_at := none }
      ⟨?_, by simp [hst], by simp [hrb], by simp [hra], rfl⟩
    simp only [findCheckpoint]
    rw [find?_map_of_key _ _ _
        (by intro a; by_cases h : a.checkpoint_id = cid <;> simp [h]),
      find?_map_of_key _ _ _
        (by intro a; by_cases h : a.checkpoint_id = cid <;> simp [h]),
      hfc']
    simp [hkeq]
  · unfold reject_checkpoint
    rw [hfc]
    dsimp only
    rw [if_pos hstb, hfe]
    dsimp only
    rw [hki]
    dsimp only
    rw [if_neg Bool.false_ne_true]
    dsimp only
    refine ⟨rfl, ?_, rfl⟩
    refine Exists.intro
      { cp with status := CheckpointStatus.PENDING, reviewer_feedback := some fb, reviewed_by := none, reviewed_at := none }
      ⟨?_, by simp [hst], by simp [hrb], by simp [hra], rfl⟩
    simp only [findCheckpoint]
    rw [find?_map_of_key _ _ _
        (by intro a; by_cases h : a.checkpoint_id = cid <;> simp [h]),
      find?_map_of_key _ _ _
        (by intro a; by_cases h : a.checkpoint_id = cid <;> simp [h]),
      hfc']
    simp [hkeq]

/-- C1 witness: on a concrete store with one PENDING checkpoint, both
operations with a failing resume surface an upstream error. -/
theorem C1_witness :
    (approve_checkpoint exDB1 20 "bad" exUser false 7).2 =
      Except.error ApiError.upstream ∧
    (reject_checkpoint exDB1 20 "bad" exUser false 7).2 =
      Except.error ApiError.upstream :=
  ⟨(C1_resume_failure_rollback exDB1 20 "bad" exUser 7 exCpPending exExecAw "kick-1"
      rfl rfl rfl rfl rfl rfl).1.1,
   (C1_resume_failure_rollback exDB1 20 "bad" exUser 7 exCpPending exExecAw "kick-1"
      rfl rfl rfl rfl rfl rfl).2.1⟩

/-- A running execution in an otherwise empty store. -/
def exExecRun : Execution := { exExecAw with status := ExecutionStatus.RUNNING }

/-- A completed execution. -/
def exExecDone : Execution := { exExecAw with status := ExecutionStatus.COMPLETED }

/-- Store with one running execution. -/
def exDB3 : DB :=
  { projects := [5], executions := [exExecRun], checkpoints := [],
    activities := [], nextId := 21 }

/-- Store with one completed execution. -/
def exDB4 : DB :=
  { projects := [5], executions := [exExecDone], checkpoints := [],
    activities := [], nextId := 21 }

/-- C6 (amended): cancelling a terminal execution fails with InvalidState and
leaves the store unchanged; cancelling a non-terminal execution marks it
CANCELLED with a completion timestamp and appends an Activity attributed to
the cancelling user (flagged as a human message) — whatever the outcome of
the job-runner cancel call, including failures. -/
theorem C6_cancel_execution :
    ∀ (s : DB) (eid : Nat) (u : User) (oc : HttpOutcome) (now : Nat) (ex : Execution),
      findExecution s eid = some ex →
      ((ex.status = ExecutionStatus.COMPLETED ∨ ex.status = ExecutionStatus.CANCELLED ∨
          ex.status = ExecutionStatus.FAILED) →
        cancel_execution_route s eid u oc now = (s, Except.error ApiError.invalidState)) ∧
      (ex.status ≠ ExecutionStatus.COMPLETED → ex.status ≠ ExecutionStatus.CANCELLED →
        ex.status ≠ ExecutionStatus.FAILED →
        ((∃ ex', findExecution (cancel_execution_route s eid u oc now).1 eid = some ex' ∧
            ex'.status = ExecutionStatus.CANCELLED ∧ ex'.completed_at = some now) ∧
         (∃ a, (cancel_execution_route s eid u oc now).1.activities = s.activities ++ [a] ∧
            a.agent_name = u.name ∧ a.is_human = true ∧
            a.message = "Execution cancelled by " ++ u.name) ∧
         (∃ r, (cancel_execution_route s eid u oc now).2 = Except.ok r))) := by
  intro s eid u oc now ex hfe
  have hfe' : s.executions.find? (fun e => e.execution_id == eid) = some ex := hfe
  have hkeq : ex.execution_id = eid := by
    simpa using List.find?_some hfe'
  constructor
  · intro hterm
    have hcont : ([ExecutionStatus.COMPLETED, ExecutionStatus.CANCELLED,
        ExecutionStatus.FAILED].contains ex.status) = true := by
      rcases hterm with h | h | h <;> rw [h] <;> decide
    unfold cancel_execution_route
    rw [hfe]
    dsimp only
    rw [if_pos hcont]
  · intro h1 h2 h3
    have hcont : ([ExecutionStatus.COMPLETED, ExecutionStatus.CANCELLED,
        ExecutionStatus.FAILED].contains ex.status) = false := by
      cases hs : ex.status
      · decide
      · decide
      · decide
      · exact absurd hs h1
      · exact absurd hs h3
      · exact absurd hs h2
    unfold cancel_execution_route
    rw [hfe]
    dsimp only
    rw [if_neg (by rw [hcont]; exact Bool.false_ne_true)]
    dsimp only
    refine ⟨?_, ⟨_, rfl, rfl, rfl, rfl⟩, ⟨_, rfl⟩⟩
    refine Exists.intro
      { ex with status := ExecutionStatus.CANCELLED, completed_at := some now }
      ⟨?_, rfl, rfl⟩
    simp only [findExecution]
    rw [find?_map_of_key _ _ _
        (by intro a; by_cases h : a.execution_id = eid <;> simp [h]),
      hfe']
    simp [hkeq]

/-- C6 counterexample: on a concrete running execution, the Activity that
CancelExecution appends is attributed to the cancelling human user ("Alice",
flagged is_human), not to "System" — so it is not a system Activity under the
repository's own sender classification (sender "system" iff actor = "System"). -/
theorem C6_counterexample :
    ∃ a, (cancel_execution_route exDB3 10 exUser HttpOutcome.requestError 7).1.activities
        = [a] ∧
      a.agent_name = "Alice" ∧ a.agent_name ≠ "System" ∧ a.is_human = true := by
  refine ⟨_, rfl, rfl, by decide, rfl⟩

/-- C6 witness: a concrete terminal cancel fails with InvalidState; a
concrete non-terminal cancel with a failing job-runner call still marks the
execution CANCELLED with a completion timestamp. -/
theorem C6_witness :
    cancel_execution_route exDB4 10 exUser HttpOutcome.success 7 =
      (exDB4, Except.error ApiError.invalidState) ∧
    (∃ ex', findExecution
        (cancel_execution_route exDB3 10 exUser HttpOutcome.requestError 7).1 10 =
          some ex' ∧
      ex'.status = ExecutionStatus.CANCELLED ∧ ex'.completed_at = some 7) :=
  ⟨(C6_cancel_execution exDB4 10 exUser HttpOutcome.success 7 exExecDone rfl).1
      (Or.inl rfl),
   ((C6_cancel_execution exDB3 10 exUser HttpOutcome.requestError 7 exExecRun rfl).2
      (by decide) (by decide) (by decide)).1⟩

/-- Membership after timestamp insertion. -/
lemma mem_sortInsert {x e : WebhookEvent} :
    ∀ {l : List WebhookEvent}, x ∈ sortInsert e l → x = e ∨ x ∈ l := by
  intro l
  induction l with
  | nil =>
    intro h
    simp only [sortInsert, List.mem_singleton] at h
    exact Or.inl h
  | cons b t ih =>
    intro h
    unfold sortInsert at h
    by_cases hc : e.timestamp < b.timestamp
    · rw [if_pos hc] at h
      rcases List.mem_cons.mp h with h0 | h0
      · exact Or.inl h0
      · exact Or.inr h0
    · rw [if_neg hc] at h
      rcases List.mem_cons.mp h with h0 | h0
      · exact Or.inr (List.mem_cons.mpr (Or.inl h0))
      · rcases ih h0 with h1 | h1
        · exact Or.inl h1
        · exact Or.inr (List.mem_cons_of_mem _ h1)

/-- Timestamp insertion adds one element. -/
lemma length_sortInsert (e : WebhookEvent) :
    ∀ (l : List WebhookEvent), (sortInsert e l).length = l.length + 1 := by
  intro l
  induction l with
  | nil => rfl
  | cons b t ih =>
    unfold sortInsert
    by_cases hc : e.timestamp < b.timestamp
    · rw [if_pos hc]
      simp
    · rw [if_neg hc]
      simp [ih]

/-- Sorting by timestamp keeps membership. -/
lemma mem_sortEvents {x : WebhookEvent} :
    ∀ {l : List WebhookEvent}, x ∈ sortEvents l → x ∈ l := by
  intro l
  induction l with
  | nil => intro h; exact h
  | cons b t ih =>
    intro h
    unfold sortEvents at h
    rcases mem_sortInsert h with h0 | h0
    · exact List.mem_cons.mpr (Or.inl h0)
    · exact List.mem_cons_of_mem _ (ih h0)

/-- Sorting by timestamp keeps the batch size. -/
lemma length_sortEvents :
    ∀ (l : List WebhookEvent), (sortEvents l).length = l.length := by
  intro l
  induction l with
  | nil => rfl
  | cons b t ih =>
    unfold sortEvents
    rw [length_sortInsert, ih]
    rfl

/-- A run of the event loop over already-recorded events leaves the store
unchanged and counts every event as skipped. -/
lemma foldl_all_dup :
    ∀ (l : List WebhookEvent) (s : DB) (acc : EventSummary),
      (∀ e ∈ l, (findActivityByEventId s e.id).isSome = true) →
      l.foldl process_event (s, acc) =
        (s, { acc with events_skipped := acc.events_skipped + l.length }) := by
  intro l
  induction l with
  | nil => intro s acc h; simp
  | cons e t ih =>
    intro s acc h
    rw [List.foldl_cons]
    have he := h e (List.mem_cons_self e t)
    have hstep : process_event (s, acc) e =
        (s, { acc with events_skipped := acc.events_skipped + 1 }) := by
      unfold process_event
      dsimp only
      cases ha : findActivityByEventId s e.id with
      | none => rw [ha] at he; simp at he
      | some a => rfl
    rw [hstep, ih s _ (fun x hx => h x (List.mem_cons_of_mem _ hx))]
    have : acc.events_skipped + 1 + t.length = acc.events_skipped + (t.length + 1) := by
      omega
    simp only [List.length_cons]
    rw [this]

/-- C7: an event whose id is already recorded as some Activity's origin event
id is skipped: the per-event step leaves the store unchanged and increments
only the skipped counter, and a batch of such events yields processed = 0,
skipped = batch size, error = 0 with the store unchanged. -/
theorem C7_event_idempotence :
    (∀ (s : DB) (acc : EventSummary) (e : WebhookEvent),
       (findActivityByEventId s e.id).isSome = true →
       process_event (s, acc) e =
         (s, { acc with events_skipped := acc.events_skipped + 1 })) ∧
    (∀ (s : DB) (evs : List WebhookEvent),
       (∀ e ∈ evs, (findActivityByEventId s e.id).isSome = true) →
       receive_event_stream s evs =
         (s, Except.ok { events_processed := 0, events_skipped := evs.length, events_error := 0 })) := by
  constructor
  · intro s acc e hd
    unfold process_event
    dsimp only
    cases ha : findActivityByEventId s e.id with
    | none => rw [ha] at hd; simp at hd
    | some a => rfl
  · intro s evs h
    unfold receive_event_stream
    rw [foldl_all_dup (sortEvents evs) s _ (fun e he => h e (mem_sortEvents he))]
    dsimp only
    rw [length_sortEvents]
    simp

/-- An activity recorded from event id "e1". -/
def exActivityE1 : Activity :=
  { activity_id := 30, execution_id := 10, agent_name := "Agent",
    activity_type := ActivityType.MESSAGE, message := "m", timestamp := 1,
    event_id := some "e1", is_human := false }

/-- Store in which event "e1" has already been processed. -/
def exDB5 : DB := { exDB1 with activities := [exActivityE1], nextId := 31 }

/-- A duplicate delivery of event "e1". -/
def exEventDup : WebhookEvent :=
  { id := "e1", execution_id := "kick-1", timestamp := 2, type := "task_started",
    data := [] }

/-- C7 witness: re-ingesting the already-processed event "e1" on a concrete
store changes nothing and counts one skip. -/
theorem C7_witness :
    process_event (exDB5, { events_processed := 0, events_skipped := 0, events_error := 0 }) exEventDup =
      (exDB5, { events_processed := 0, events_skipped := 1, events_error := 0 }) ∧
    receive_event_stream exDB5 [exEventDup] =
      (exDB5, Except.ok { events_processed := 0, events_skipped := 1, events_error := 0 }) :=
  ⟨C7_event_idempotence.1 exDB5 _ exEventDup rfl,
   C7_event_idempotence.2 exDB5 [exEventDup]
     (fun e he => by rw [List.mem_singleton.mp he]; rfl)⟩

/-- C10: an event whose execution identifier matches no known execution's
external job id is dropped without a new Activity, counted as skipped (not
as an error), and the batch endpoint still returns a success summary. -/
theorem C10_unknown_execution_skipped :
    ∀ (s : DB) (acc : EventSummary) (e : WebhookEvent),
      findActivityByEventId s e.id = none →
      findExecutionByCrewaiId s e.execution_id = none →
      process_event (s, acc) e =
        (s, { acc with events_skipped := acc.events_skipped + 1 }) ∧
      receive_event_stream s [e] =
        (s, Except.ok { events_processed := 0, events_skipped := 1, events_error := 0 }) := by
  intro s acc e h1 h2
  have hstep : ∀ acc0 : EventSummary, process_event (s, acc0) e =
      (s, { acc0 with events_skipped := acc0.events_skipped + 1 }) := by
    intro acc0
    unfold process_event
    dsimp only
    rw [h1]
    dsimp only
    rw [h2]
  refine ⟨hstep acc, ?_⟩
  unfold receive_event_stream
  rw [show sortEvents [e] = [e] from rfl, List.foldl_cons, hstep _, List.foldl_nil]

/-- An event referencing an unknown external job id. -/
def exEventUnknown : WebhookEvent :=
  { id := "e2", execution_id := "nope", timestamp := 3, type := "task_started",
    data := [] }

/-- C10 witness: a concrete unknown-execution event is skipped, not errored,
and the endpoint returns a success summary. -/
theorem C10_witness :
    receive_event_stream exDB1 [exEventUnknown] =
      (exDB1, Except.ok { events_processed := 0, events_skipped := 1, events_error := 0 }) :=
  (C10_unknown_execution_skipped exDB1
    { events_processed := 0, events_skipped := 0, events_error := 0 }
    exEventUnknown rfl rfl).2

/-- C2: in every reachable store at most one PENDING checkpoint exists per
(execution, task id) pair, and ingesting a HITL notification whose pair
already has a PENDING checkpoint returns that checkpoint and leaves the
whole store unchanged. -/
theorem C2_pending_unique_and_idempotent :
    (∀ (s : DB) (eid : Nat) (tid : String), Reach s →
       s.checkpoints.countP (pendingPred eid tid) ≤ 1) ∧
    (∀ (s : DB) (p : HITLWebhookPayload) (now : Nat) (ex : Execution) (cp : Checkpoint),
       findExecutionByCrewaiId s p.execution_id = some ex →
       findPendingCheckpoint s ex.execution_id p.task_id = some cp →
       receive_hitl_checkpoint s p now =
         (s, Except.ok { status := "received", checkpoint_id := cp.checkpoint_id, message := "Checkpoint already exists (idempotency)" })) := by
  constructor
  · intro s eid tid hr
    exact (reach_storeInv hr).2.2 eid tid
  · intro s p now ex cp hfe hdup
    unfold receive_hitl_checkpoint
    rw [hfe]
    dsimp only
    rw [hdup]

/-- The HITL notification used in witness runs. -/
def exPayload : HITLWebhookPayload :=
  { execution_id := "kick-1", task_id := "brand_voice_review",
    task_output := "text", agent_name := some "Agent" }

/-- Initial witness store: one project. -/
def wDB0 : DB := initDB [5]

/-- After a successful start returning kickoff id "kick-1". -/
def wDB1 : DB :=
  (start_execution wDB0 5 "creation" exUser (Except.ok (some "kick-1")) 0).1

/-- After ingesting the HITL notification: one PENDING checkpoint. -/
def wDB2 : DB := (receive_hitl_checkpoint wDB1 exPayload 1).1

/-- wDB1 is reachable. -/
lemma reach_wDB1 : Reach wDB1 :=
  Reach.step (Reach.init [5])
    (Step.start wDB0 5 "creation" exUser (Except.ok (some "kick-1")) 0)

/-- wDB2 is reachable. -/
lemma reach_wDB2 : Reach wDB2 :=
  Reach.step reach_wDB1 (Step.hitl wDB1 exPayload 1)

/-- C2 witness: on the concrete reachable store with one PENDING checkpoint,
the pair count is at most one and a duplicate notification changes nothing. -/
theorem C2_witness :
    wDB2.checkpoints.countP (pendingPred 0 "brand_voice_review") ≤ 1 ∧
    (receive_hitl_checkpoint wDB2 exPayload 2).1 = wDB2 :=
  ⟨C2_pending_unique_and_idempotent.1 wDB2 0 "brand_voice_review" reach_wDB2,
   by rw [C2_pending_unique_and_idempotent.2 wDB2 exPayload 2 _ _ rfl rfl]⟩

/-- Correspondence of an execution table across one API call: every old row
survives with the same primary key and external job id, and every new-state
row either descends from an old row (same key, same external job id) or is
the freshly inserted row keyed by the allocator. -/
def ExecPreserved (s : DB) (l' : List Execution) : Prop :=
  (∀ e ∈ s.executions, ∃ e', e' ∈ l' ∧ e'.execution_id = e.execution_id ∧
     e'.crewai_execution_id = e.crewai_execution_id) ∧
  (∀ e' ∈ l', (∃ e, e ∈ s.executions ∧ e'.execution_id = e.execution_id ∧
     e'.crewai_execution_id = e.crewai_execution_id) ∨ e'.execution_id = s.nextId)

/-- Unchanged table. -/
lemma execPreserved_refl (s : DB) : ExecPreserved s s.executions := by
  constructor
  · intro e he; exact ⟨e, he, rfl, rfl⟩
  · intro e' he'; exact Or.inl ⟨e', he', rfl, rfl⟩

/-- Pointwise update preserving key and external job id. -/
lemma execPreserved_map (s : DB) (f : Execution → Execution)
    (hid : ∀ e, (f e).execution_id = e.execution_id)
    (hcw : ∀ e, (f e).crewai_execution_id = e.crewai_execution_id) :
    ExecPreserved s (s.executions.map f) := by
  constructor
  · intro e he; exact ⟨f e, List.mem_map_of_mem f he, hid e, hcw e⟩
  · intro e' he'
    obtain ⟨e, he, rfl⟩ := List.mem_map.mp he'
    exact Or.inl ⟨e, he, hid e, hcw e⟩

/-- Fresh insertion keyed by the allocator. -/
lemma execPreserved_append (s : DB) (x : Execution)
    (hx : x.execution_id = s.nextId) :
    ExecPreserved s (s.executions ++ [x]) := by
  constructor
  · intro e he; exact ⟨e, List.mem_append.mpr (Or.inl he), rfl, rfl⟩
  · intro e' he'
    rcases List.mem_append.mp he' with h | h
    · exact Or.inl ⟨e', h, rfl, rfl⟩
    · rw [List.mem_singleton.mp h]
      exact Or.inr hx

/-- Every API call maps the execution table as ExecPreserved describes. -/
lemma step_exec_table {s s' : DB} (hstep : Step s s') :
    ExecPreserved s s'.executions := by
  cases hstep with
  | start pid mode u oc now =>
    unfold start_execution
    by_cases hproj : s.projects.contains pid
    · rw [if_pos hproj]
      cases oc with
      | ok kid => exact execPreserved_append s _ rfl
      | error msg => exact execPreserved_append s _ rfl
    · rw [if_neg hproj]
      exact execPreserved_refl s
  | approve cid fb u rOk now =>
    unfold approve_checkpoint
    cases hfc : findCheckpoint s cid with
    | none => exact execPreserved_refl s
    | some cp =>
      dsimp only
      by_cases hst : (cp.status == CheckpointStatus.PENDING) = true
      · rw [if_pos hst]
        cases hfe : findExecution s cp.execution_id with
        | none => exact execPreserved_refl s
        | some ex =>
          dsimp only
          cases hki : ex.crewai_execution_id with
          | none => exact execPreserved_refl s
          | some k =>
            dsimp only
            cases rOk with
            | true =>
              rw [if_pos rfl]
              exact execPreserved_map s _
                (by intro a; by_cases h : a.execution_id = ex.execution_id <;> simp [h])
                (by intro a; by_cases h : a.execution_id = ex.execution_id <;> simp [h])
            | false =>
              rw [if_neg Bool.false_ne_true]
              exact execPreserved_refl s
      · rw [if_neg hst]
        exact execPreserved_refl s
  | reject cid fb u rOk now =>
    unfold reject_checkpoint
    cases hfc : findCheckpoint s cid with
    | none => exact execPreserved_refl s
    | some cp =>
      dsimp only
      by_cases hst : (cp.status == CheckpointStatus.PENDING) = true
      · rw [if_pos hst]
        cases hfe : findExecution s cp.execution_id with
        | none => exact execPreserved_refl s
        | some ex =>
          dsimp only
          cases hki : ex.crewai_execution_id with
          | none => exact execPreserved_refl s
          | some k =>
            dsimp only
            cases rOk with
            | true =>
              rw [if_pos rfl]
              exact execPreserved_map s _
                (by intro a; by_cases h : a.execution_id = ex.execution_id <;> simp [h])
                (by intro a; by_cases h : a.execution_id = ex.execution_id <;> simp [h])
            | false =>
              rw [if_neg Bool.false_ne_true]
              exact execPreserved_refl s
      · rw [if_neg hst]
        exact execPreserved_refl s
  | cancel eid u oc now =>
    unfold cancel_execution_route
    cases hfe : findExecution s eid with
    | none => exact execPreserved_refl s
    | some ex =>
      dsimp only
      by_cases hterm : ([ExecutionStatus.COMPLETED, ExecutionStatus.CANCELLED,
          ExecutionStatus.FAILED].contains ex.status) = true
      · rw [if_pos hterm]
        exact execPreserved_refl s
      · rw [if_neg hterm]
        exact execPreserved_map s _
          (by intro a; by_cases h : a.execution_id = eid <;> simp [h])
          (by intro a; by_cases h : a.execution_id = eid <;> simp [h])
  | hitl p now =>
    unfold receive_hitl_checkpoint
    cases hfe : findExecutionByCrewaiId s p.execution_id with
    | none => exact execPreserved_refl s
    | some ex =>
      dsimp only
      cases hdup : findPendingCheckpoint s ex.execution_id p.task_id with
      | some existing => exact execPreserved_refl s
      | none =>
        dsimp only
        exact execPreserved_map s _
          (by intro a; by_cases h : a.execution_id = ex.execution_id <;> simp [h])
          (by intro a; by_cases h : a.execution_id = ex.execution_id <;> simp [h])
  | stream evs =>
    have h := (foldl_process_event_preserves (sortEvents evs) s
      { events_processed := 0, events_skipped := 0, events_error := 0 }).2.1
    unfold receive_event_stream
    dsimp only
    rw [h]
    exact execPreserved_refl s

/-- C4: once an execution's external job id (crewai_execution_id) is set, no
API call changes it: the row survives every step with the same id and
external job id, and any row carrying that primary key after the step still
carries the same external job id. -/
theorem C4_external_job_id_immutable :
    ∀ (s s' : DB), Reach s → Step s s' →
      ∀ e ∈ s.executions, ∀ v : String, e.crewai_execution_id = some v →
        (∃ e', e' ∈ s'.executions ∧ e'.execution_id = e.execution_id ∧
           e'.crewai_execution_id = some v) ∧
        (∀ e' ∈ s'.executions, e'.execution_id = e.execution_id →
           e'.crewai_execution_id = some v) := by
  intro s s' hr hstep e he v hv
  obtain ⟨hfwd, hbwd⟩ := step_exec_table hstep
  obtain ⟨⟨he1, he2⟩, _, _⟩ := reach_storeInv hr
  constructor
  · obtain ⟨e', he', hid, hcw⟩ := hfwd e he
    exact ⟨e', he', hid, by rw [hcw, hv]⟩
  · intro e' he' hid
    rcases hbwd e' he' with ⟨e0, he0, hid0, hcw0⟩ | hnew
    · have he0e : e0 = e :=
        List.inj_on_of_nodup_map he2 he0 he (by rw [← hid0, hid])
      rw [hcw0, he0e, hv]
    · exfalso
      have hlt := he1 e he
      rw [hid] at hnew
      omega

/-- The execution row created in the witness run. -/
def wExec0 : Execution :=
  { execution_id := 0, project_id := 5, workflow_mode := "creation",
    status := ExecutionStatus.RUNNING, crewai_execution_id := some "kick-1",
    started_at := 0, completed_at := none, error_message := none, created_by := 1 }

/-- C4 witness: across the concrete HITL-ingestion step, the started
execution keeps external job id "kick-1". -/
theorem C4_witness :
    ∃ e', e' ∈ wDB2.executions ∧ e'.execution_id = 0 ∧
      e'.crewai_execution_id = some "kick-1" := by
  obtain ⟨e', he', hid, hcw⟩ :=
    (C4_external_job_id_immutable wDB1 wDB2 reach_wDB1
      (Step.hitl wDB1 exPayload 1) wExec0 (by decide) "kick-1" rfl).1
  exact ⟨e', he', by rw [hid]; rfl, hcw⟩

/-- Lookup after a dict assignment. -/
lemma getUserCount_setUserCount (l : List (String × Int)) (u : String) (n : Int)
    (u' : String) :
    getUserCount (setUserCount l u n) u' = if u = u' then n else getUserCount l u' := by
  induction l with
  | nil =>
    by_cases h : u = u'
    · subst h; simp [setUserCount, getUserCount]
    · simp [setUserCount, getUserCount, h, beq_iff_eq]
  | cons p rest ih =>
    by_cases hp : p.1 = u
    · subst hp
      by_cases h : p.1 = u'
      · subst h
        simp [setUserCount, getUserCount]
      · simp [setUserCount, getUserCount, h, beq_iff_eq]
    · by_cases h : p.1 = u'
      · have hne : ¬ u = u' := fun hh => hp (h.trans hh.symm)
        have hne' : ¬ u' = u := fun hh => hne hh.symm
        simp [setUserCount, getUserCount, hp, h, hne, hne', beq_iff_eq]
      · simp [setUserCount, getUserCount, hp, h, beq_iff_eq, ih]

/-- Lookup after a dict deletion. -/
lemma getUserCount_delUserCount (l : List (String × Int)) (u u' : String) :
    getUserCount (delUserCount l u) u' = if u = u' then 0 else getUserCount l u' := by
  induction l with
  | nil => simp [delUserCount, getUserCount]
  | cons p rest ih =>
    by_cases hp : p.1 = u
    · subst hp
      by_cases h : p.1 = u'
      · subst h; simp [delUserCount, getUserCount, ih]
      · simp [delUserCount, getUserCount, h, ih, beq_iff_eq]
    · by_cases h : p.1 = u'
      · have hne : ¬ u = u' := fun hh => hp (h.trans hh.symm)
        have hne' : ¬ u' = u := fun hh => hne hh.symm
        simp [delUserCount, getUserCount, hp, h, hne, hne', beq_iff_eq]
      · simp [delUserCount, getUserCount, hp, h, ih, beq_iff_eq]

/-- No caller ever holds more connections than the cap. -/
def SSECapInv (s : SSEState) : Prop :=
  ∀ u, getUserCount s.user_connections u ≤ MAX_CONNECTIONS_PER_USER

/-- connect preserves the cap. -/
lemma sseCapInv_connect (s : SSEState) (e u : String) (q : Nat)
    (h : SSECapInv s) : SSECapInv (sse_connect s e u q).1 := by
  unfold sse_connect
  by_cases hc : getUserCount s.user_connections u ≥ MAX_CONNECTIONS_PER_USER
  · rw [if_pos hc]; exact h
  · rw [if_neg hc]
    intro u'
    dsimp only
    rw [getUserCount_setUserCount]
    by_cases hu : u = u'
    · rw [if_pos hu]
      have h2 := h u
      unfold MAX_CONNECTIONS_PER_USER at *
      omega
    · rw [if_neg hu]; exact h u'

/-- disconnect preserves the cap. -/
lemma sseCapInv_disconnect (s : SSEState) (q : Nat)
    (h : SSECapInv s) : SSECapInv (sse_disconnect s q) := by
  unfold sse_disconnect
  cases hm : getMeta s.queue_metadata q with
  | none => exact h
  | some eu =>
    dsimp only
    by_cases hc : getUserCount s.user_connections eu.2 - 1 ≤ 0
    · rw [if_pos hc]
      intro u'
      dsimp only
      rw [getUserCount_delUserCount]
      by_cases hu : eu.2 = u'
      · rw [if_pos hu]
        unfold MAX_CONNECTIONS_PER_USER
        omega
      · rw [if_neg hu]; exact h u'
    · rw [if_neg hc]
      intro u'
      dsimp only
      rw [getUserCount_setUserCount]
      by_cases hu : eu.2 = u'
      · rw [if_pos hu]
        have h2 := h eu.2
        omega
      · rw [if_neg hu]; exact h u'

/-- Every reachable manager state satisfies the cap invariant. -/
lemma sseReach_capInv {s : SSEState} (h : SSEReach s) : SSECapInv s := by
  induction h with
  | init =>
    intro u
    show (0 : Int) ≤ MAX_CONNECTIONS_PER_USER
    unfold MAX_CONNECTIONS_PER_USER
    omega
  | connect s e u q hs ih => exact sseCapInv_connect s e u q ih
  | disconnect s q hs ih => exact sseCapInv_disconnect s q ih

/-- C9: in every reachable manager state no caller exceeds the cap; a
Subscribe is rejected exactly when the caller's active-connection count
already equals the cap; and after an Unsubscribe of one of the caller's
registered queues, a Subscribe by the same caller succeeds. -/
theorem C9_subscriber_cap :
    (∀ (s : SSEState) (u : String), SSEReach s →
       getUserCount s.user_connections u ≤ MAX_CONNECTIONS_PER_USER) ∧
    (∀ (s : SSEState) (e u : String) (q : Nat), SSEReach s →
       ((sse_connect s e u q).2 = false ↔
         getUserCount s.user_connections u = MAX_CONNECTIONS_PER_USER)) ∧
    (∀ (s : SSEState) (q : Nat) (e0 u : String), SSEReach s →
       getMeta s.queue_metadata q = some (e0, u) →
       ∀ (e : String) (q' : Nat),
         (sse_connect (sse_disconnect s q) e u q').2 = true) := by
  refine ⟨?_, ?_, ?_⟩
  · intro s u hr
    exact sseReach_capInv hr u
  · intro s e u q hr
    have hcap := sseReach_capInv hr u
    unfold sse_connect
    by_cases hc : getUserCount s.user_connections u ≥ MAX_CONNECTIONS_PER_USER
    · rw [if_pos hc]
      constructor
      · intro _; omega
      · intro _; rfl
    · rw [if_neg hc]
      constructor
      · intro hff
        simp at hff
      · intro heq
        exact absurd heq (by omega)
  · intro s q e0 u hr hm e q'
    have hcap := sseReach_capInv hr u
    have hlt : getUserCount (sse_disconnect s q).user_connections u <
        MAX_CONNECTIONS_PER_USER := by
      unfold sse_disconnect
      rw [hm]
      dsimp only
      by_cases hc : getUserCount s.user_connections u - 1 ≤ 0
      · rw [if_pos hc]
        rw [getUserCount_delUserCount]
        rw [if_pos rfl]
        unfold MAX_CONNECTIONS_PER_USER
        omega
      · rw [if_neg hc]
        rw [getUserCount_setUserCount]
        rw [if_pos rfl]
        omega
    unfold sse_connect
    rw [if_neg (by omega)]

/-- One connect by "user1". -/
def sseS1 : SSEState := (sse_connect sseInit "exec1" "user1" 1).1

/-- Two connects by "user1". -/
def sseS2 : SSEState := (sse_connect sseS1 "exec1" "user1" 2).1

/-- Three connects by "user1": the caller is at the cap. -/
def sseS3 : SSEState := (sse_connect sseS2 "exec1" "user1" 3).1

/-- sseS3 is reachable. -/
lemma sseReach_S3 : SSEReach sseS3 :=
  SSEReach.connect _ _ _ _
    (SSEReach.connect _ _ _ _ (SSEReach.connect _ _ _ _ SSEReach.init))

/-- C9 witness: after three concrete connects the caller is within the cap, a
fourth Subscribe is rejected, and after unsubscribing queue 1 a new Subscribe
succeeds. -/
theorem C9_witness :
    getUserCount sseS3.user_connections "user1" ≤ MAX_CONNECTIONS_PER_USER ∧
    (sse_connect sseS3 "exec1" "user1" 4).2 = false ∧
    (sse_connect (sse_disconnect sseS3 1) "exec1" "user1" 4).2 = true :=
  ⟨C9_subscriber_cap.1 sseS3 "user1" sseReach_S3,
   (C9_subscriber_cap.2.1 sseS3 "exec1" "user1" 4 sseReach_S3).mpr (by decide),
   C9_subscriber_cap.2.2 sseS3 1 "exec1" "user1" sseReach_S3 (by decide) "exec1" 4⟩
